import Mathlib

/-!
Verification development for the sprokit process abstraction
(src/src/sprokit/pipeline/process.h of the kwiver repository).

The repository ships only the class declaration (process.h); the member
function bodies live in process.cxx, which is not part of the source
tree given here.  Wherever a body is missing, the corresponding Lean
definition is modelled from the natural-language specification and from
the doc comments of process.h (its throw clauses and behavioural notes),
as marked on each definition.  The inline templates at the bottom of
process.h (config_value, grab_from_port_as, grab_input_as,
push_to_port_as) are present in the source and are embedded directly.
-/

namespace Sprokit

/-- Status carried by a datum, ordered `data < empty < error < complete`
(spec section 4.2: "ordinary-data < empty < error < complete"). -/
inductive DatumType where
  | data
  | empty
  | error
  | complete
deriving DecidableEq, Repr

/-- A datum: a payload (string-encoded) together with its status. -/
structure Datum where
  type : DatumType
  payload : String
deriving DecidableEq, Repr

/-- An edge datum packet: a datum plus its stamp (position marker). -/
structure EdgeDatum where
  datum : Datum
  pos : Nat
deriving DecidableEq, Repr

/-- An edge is modelled by its FIFO queue contents; the head is the next
datum to be popped. -/
abbrev Edge := List EdgeDatum

/-- Severity rank of a datum status, per the spec ordering. -/
def sev : DatumType → Nat
  | DatumType.data => 0
  | DatumType.empty => 1
  | DatumType.error => 2
  | DatumType.complete => 3

/-- Maximum of two datum statuses under the severity ordering. -/
def max_dt (a b : DatumType) : DatumType :=
  if sev b ≤ sev a then a else b

/-- Information about a set of data (process::data_info). -/
structure data_info where
  in_sync : Bool
  max_status : DatumType
deriving DecidableEq, Repr

/-- Modelled from the spec: the Data Synchronization Checker
(process::edge_data_info, whose body is in the missing process.cxx).
Given the peeked head datums of the required bound inputs it computes
whether all datums share the same position marker and the
highest-severity status present. -/
def edge_data_info (data : List EdgeDatum) : data_info :=
  match data with
  | [] => { in_sync := true, max_status := DatumType.data }
  | fst :: rest =>
    { in_sync := rest.all (fun d => d.pos == fst.pos)
      max_status := rest.foldl (fun m d => max_dt m d.datum.type) fst.datum.type }

theorem sev_le_three (t : DatumType) : sev t ≤ 3 := by
  cases t <;> simp [sev]

theorem sev_inj {a b : DatumType} (h : sev a = sev b) : a = b := by
  cases a <;> cases b <;> simp_all [sev]

theorem sev_max_dt_left (a b : DatumType) : sev a ≤ sev (max_dt a b) := by
  unfold max_dt
  split <;> omega

theorem sev_max_dt_right (a b : DatumType) : sev b ≤ sev (max_dt a b) := by
  unfold max_dt
  split <;> omega

theorem max_dt_cases (a b : DatumType) : max_dt a b = a ∨ max_dt a b = b := by
  unfold max_dt
  split <;> simp

/-- The fold computing max_status yields either the seed or a member. -/
theorem foldl_max_dt_cases (l : List EdgeDatum) (a : DatumType) :
    l.foldl (fun m d => max_dt m d.datum.type) a = a ∨
    ∃ d ∈ l, l.foldl (fun m d => max_dt m d.datum.type) a = d.datum.type := by
  induction l generalizing a with
  | nil => exact Or.inl rfl
  | cons x xs ih =>
    rcases ih (max_dt a x.datum.type) with h | h
    · rcases max_dt_cases a x.datum.type with h2 | h2
      · exact Or.inl (by simpa [h2] using h)
      · exact Or.inr ⟨x, by simp, by simpa [h2] using h⟩
    · rcases h with ⟨d, hd, hval⟩
      exact Or.inr ⟨d, by simp [hd], by simpa using hval⟩

/-- The fold computing max_status is an upper bound for its seed and for
every member. -/
theorem foldl_max_dt_ub (l : List EdgeDatum) (a : DatumType) :
    sev a ≤ sev (l.foldl (fun m d => max_dt m d.datum.type) a) ∧
    ∀ d ∈ l, sev d.datum.type ≤ sev (l.foldl (fun m d => max_dt m d.datum.type) a) := by
  induction l generalizing a with
  | nil => exact ⟨Nat.le_refl _, by simp⟩
  | cons x xs ih =>
    have h := ih (max_dt a x.datum.type)
    constructor
    · exact Nat.le_trans (sev_max_dt_left a x.datum.type) (by simpa using h.1)
    · intro d hd
      rcases List.mem_cons.mp hd with h2 | h2
      · subst h2
        exact Nat.le_trans (sev_max_dt_right a d.datum.type) (by simpa using h.1)
      · simpa using h.2 d h2

/-- Port types (process.h lines 499-538): a concrete type identifier or
one of the sentinels type_any, type_none, type_data_dependent,
type_flow_dependent (optionally carrying a tag). -/
inductive PortType where
  | concrete (t : String)
  | type_any
  | type_none
  | data_dependent
  | flow_dependent (tag : String)
deriving DecidableEq, Repr

/-- Port flags (process.h lines 540-606). -/
inductive PortFlag where
  | required
  | input_static
  | input_mutable
  | input_nodep
  | output_const
  | output_shared
deriving DecidableEq, Repr

/-- Information about a port (process::port_info).  Frequencies are
modelled in the integral case (process.h lines 125-132: frequencies at
or above one are integers); 0 is the reserved "unconstrained" value. -/
structure port_info where
  type : PortType
  flags : List PortFlag
  description : String
  frequency : Nat
deriving DecidableEq, Repr

/-- Information about a configuration parameter (process::conf_info). -/
structure conf_info where
  defVal : String
  description : String
  tunable : Bool
deriving DecidableEq, Repr

/-- Data checking levels (process.h lines 257-265). -/
inductive data_check_t where
  | check_none
  | check_sync
  | check_valid
deriving DecidableEq, Repr

/-- Errors signalled by process operations, named after the exception
types declared in the throw clauses of process.h. -/
inductive ProcError where
  | reconfigured
  | unconfigured
  | reinitialization
  | uninitialized
  | null_edge_port_connection
  | connect_to_initialized_process
  | no_such_port
  | port_reconnect
  | static_type_reset
  | set_type_on_initialized_process
  | no_such_configuration_key
  | missing_datum
deriving DecidableEq, Repr

/-- Association-list lookup keyed by port or configuration-key name. -/
def lookupA {α : Type} (k : String) : List (String × α) → Option α
  | [] => Option.none
  | (k2, v) :: rest => if k2 = k then Option.some v else lookupA k rest

/-- Association-list update (insert or overwrite). -/
def setA {α : Type} (k : String) (v : α) : List (String × α) → List (String × α)
  | [] => [(k, v)]
  | (k2, v2) :: rest => if k2 = k then (k, v) :: rest else (k2, v2) :: setA k v rest

/-- Map every value of an association list, with access to its key. -/
def map_vals {α : Type} (f : String → α → α) : List (String × α) → List (String × α)
  | [] => []
  | (k, v) :: rest => (k, f k v) :: map_vals f rest

theorem lookupA_map_vals {α : Type} (f : String → α → α) (k : String)
    (l : List (String × α)) :
    lookupA k (map_vals f l) = (lookupA k l).map (f k) := by
  induction l with
  | nil => rfl
  | cons hd tl ih =>
    obtain ⟨k2, v⟩ := hd
    by_cases h : k2 = k
    · subst h
      simp [map_vals, lookupA]
    · simp [map_vals, lookupA, h, ih]

theorem lookupA_setA_self {α : Type} (k : String) (v : α) (l : List (String × α)) :
    lookupA k (setA k v l) = Option.some v := by
  induction l with
  | nil => simp [setA, lookupA]
  | cons hd tl ih =>
    obtain ⟨k2, v2⟩ := hd
    by_cases h : k2 = k
    · subst h
      simp [setA, lookupA]
    · simp [setA, lookupA, h, ih]

theorem lookupA_setA_ne {α : Type} (k k2 : String) (v : α) (l : List (String × α))
    (h : k2 ≠ k) : lookupA k (setA k2 v l) = lookupA k l := by
  induction l with
  | nil => simp [setA, lookupA, h]
  | cons hd tl ih =>
    obtain ⟨k3, v3⟩ := hd
    by_cases h2 : k3 = k2
    · subst h2
      simp [setA, lookupA, h]
    · by_cases h3 : k3 = k
      · subst h3
        simp [setA, lookupA, h2]
      · simp [setA, lookupA, h2, h3, ih]

theorem lookupA_mem {α : Type} {k : String} {v : α} {l : List (String × α)}
    (h : lookupA k l = Option.some v) : (k, v) ∈ l := by
  induction l with
  | nil => simp [lookupA] at h
  | cons hd tl ih =>
    obtain ⟨k2, v2⟩ := hd
    by_cases h2 : k2 = k
    · subst h2
      simp [lookupA] at h
      simp [h]
    · simp [lookupA, h2] at h
      simp [ih h]

/-- The state of a process (the private data of sprokit::process,
modelled from the data model of the spec, section 3): lifecycle booleans, the
data-checking level, port and configuration registries, bound edges, and
the resolutions of tagged flow-dependent types. -/
structure ProcState where
  configured : Bool
  initialized : Bool
  is_complete : Bool
  check_level : data_check_t
  input_port_infos : List (String × port_info)
  output_port_infos : List (String × port_info)
  input_edges : List (String × Edge)
  output_edges : List (String × List Edge)
  flow_resolved : List (String × String)
  conf_keys : List (String × conf_info)
  conf_values : List (String × String)
deriving DecidableEq, Repr

/-- Modelled from the spec: process::configure (process.h lines 267-278).
Throws reconfigured_exception if called multiple times; otherwise the
state advances Created to Configured. -/
def configure (s : ProcState) : Except ProcError ProcState :=
  if s.configured then Except.error ProcError.reconfigured
  else Except.ok { s with configured := true }

/-- Modelled from the spec: process::init (process.h lines 280-292).
Throws unconfigured_exception if called before configure and
reinitialization_exception if called multiple times. -/
def init (s : ProcState) : Except ProcError ProcState :=
  if s.configured = false then Except.error ProcError.unconfigured
  else if s.initialized then Except.error ProcError.reinitialization
  else Except.ok { s with initialized := true }

/-- Modelled from the spec: process::reset (process.h lines 294-299):
removes all edges from the process, clears completion and returns to the
post-configure state. -/
def reset (s : ProcState) : ProcState :=
  { s with initialized := false
           is_complete := false
           input_edges := []
           output_edges := [] }

/-- Modelled from the spec: process::mark_process_as_complete
(process.h lines 878-904): records that the process should not be
stepped any more. -/
def mark_process_as_complete (s : ProcState) : ProcState :=
  { s with is_complete := true }

/-- Modelled from the spec: process::set_data_checking_level
(process.h lines 1056-1078). -/
def set_data_checking_level (s : ProcState) (check : data_check_t) : ProcState :=
  { s with check_level := check }

/-- Modelled from the spec: process::connect_input_port (process.h lines
322-346).  Per its throw clauses: null_edge_port_connection_exception on
an empty edge, connect_to_initialized_process_exception after init,
no_such_port_exception on an unknown port; the precondition that the
input port has not been connected before is enforced with a
port-reconnect error. -/
def connect_input_port (s : ProcState) (port : String) (edge : Option Edge) :
    Except ProcError ProcState :=
  match edge with
  | Option.none => Except.error ProcError.null_edge_port_connection
  | Option.some e =>
    if s.initialized then Except.error ProcError.connect_to_initialized_process
    else
      match lookupA port s.input_port_infos with
      | Option.none => Except.error ProcError.no_such_port
      | Option.some _ =>
        match lookupA port s.input_edges with
        | Option.some _ => Except.error ProcError.port_reconnect
        | Option.none => Except.ok { s with input_edges := setA port e s.input_edges }

/-- Modelled from the spec: process::connect_output_port (process.h lines
347-369).  Its throw clauses list only null_edge_port_connection_exception
and no_such_port_exception: unlike the input side, no
connect_to_initialized_process_exception is declared, so an output
connection is accepted even after initialization, and output ports fan
out to any number of edges. -/
def connect_output_port (s : ProcState) (port : String) (edge : Option Edge) :
    Except ProcError ProcState :=
  match edge with
  | Option.none => Except.error ProcError.null_edge_port_connection
  | Option.some e =>
    match lookupA port s.output_port_infos with
    | Option.none => Except.error ProcError.no_such_port
    | Option.some _ =>
      let old := match lookupA port s.output_edges with
        | Option.some es => es
        | Option.none => []
      Except.ok { s with output_edges := setA port (old ++ [e]) s.output_edges }

/-- Whether a declared port type is a dependent sentinel (resolvable). -/
def port_type_is_dependent : PortType → Bool
  | PortType.data_dependent => true
  | PortType.flow_dependent _ => true
  | _ => false

/-- The type a port currently reads as: a tagged flow-dependent type
reads as the concrete type its tag has been resolved to, if any. -/
def resolved_port_type (s : ProcState) (t : PortType) : PortType :=
  match t with
  | PortType.flow_dependent tag =>
    match lookupA tag s.flow_resolved with
    | Option.some c => PortType.concrete c
    | Option.none => PortType.flow_dependent tag
  | other => other

/-- Modelled from the spec: process::input_port_info (process.h lines
384-396); throws no_such_port_exception on an unknown port, otherwise
reports the information of the port with its resolved type. -/
def input_port_info (s : ProcState) (port : String) : Except ProcError port_info :=
  match lookupA port s.input_port_infos with
  | Option.none => Except.error ProcError.no_such_port
  | Option.some info => Except.ok { info with type := resolved_port_type s info.type }

/-- Modelled from the spec: process::output_port_info (process.h lines
397-409). -/
def output_port_info (s : ProcState) (port : String) : Except ProcError port_info :=
  match lookupA port s.output_port_infos with
  | Option.none => Except.error ProcError.no_such_port
  | Option.some info => Except.ok { info with type := resolved_port_type s info.type }

/-- Modelled from the spec: process::set_input_port_type (process.h
lines 411-423) together with its overridable subclass hook, whose
verdict is the parameter accepts.  Per the throw clauses:
set_type_on_initialized_process_exception after init,
no_such_port_exception on an unknown port, static_type_reset_exception
when the declared type is not a dependent sentinel.  Resolving a tagged
flow-dependent port records the type for the whole tag equivalence
class; a tag already resolved to a different concrete type refuses the
proposal (returns false) without changing anything. -/
def set_input_port_type (accepts : Bool) (s : ProcState) (port : String)
    (new_type : String) : Except ProcError (Bool × ProcState) :=
  if s.initialized then Except.error ProcError.set_type_on_initialized_process
  else
    match lookupA port s.input_port_infos with
    | Option.none => Except.error ProcError.no_such_port
    | Option.some info =>
      match info.type with
      | PortType.data_dependent =>
        if accepts then
          let infos2 := setA port { info with type := PortType.concrete new_type } s.input_port_infos
          Except.ok (true, { s with input_port_infos := infos2 })
        else Except.ok (false, s)
      | PortType.flow_dependent tag =>
        if tag = "" then
          if accepts then
            let infos2 := setA port { info with type := PortType.concrete new_type } s.input_port_infos
            Except.ok (true, { s with input_port_infos := infos2 })
          else Except.ok (false, s)
        else
          match lookupA tag s.flow_resolved with
          | Option.some t =>
            if t = new_type then Except.ok (true, s) else Except.ok (false, s)
          | Option.none =>
            if accepts then
              Except.ok (true, { s with flow_resolved := setA tag new_type s.flow_resolved })
            else Except.ok (false, s)
      | _ => Except.error ProcError.static_type_reset

/-- Modelled from the spec: process::set_output_port_type (process.h
lines 425-441), symmetric to the input side over the output registry. -/
def set_output_port_type (accepts : Bool) (s : ProcState) (port : String)
    (new_type : String) : Except ProcError (Bool × ProcState) :=
  if s.initialized then Except.error ProcError.set_type_on_initialized_process
  else
    match lookupA port s.output_port_infos with
    | Option.none => Except.error ProcError.no_such_port
    | Option.some info =>
      match info.type with
      | PortType.data_dependent =>
        if accepts then
          let infos2 := setA port { info with type := PortType.concrete new_type } s.output_port_infos
          Except.ok (true, { s with output_port_infos := infos2 })
        else Except.ok (false, s)
      | PortType.flow_dependent tag =>
        if tag = "" then
          if accepts then
            let infos2 := setA port { info with type := PortType.concrete new_type } s.output_port_infos
            Except.ok (true, { s with output_port_infos := infos2 })
          else Except.ok (false, s)
        else
          match lookupA tag s.flow_resolved with
          | Option.some t =>
            if t = new_type then Except.ok (true, s) else Except.ok (false, s)
          | Option.none =>
            if accepts then
              Except.ok (true, { s with flow_resolved := setA tag new_type s.flow_resolved })
            else Except.ok (false, s)
      | _ => Except.error ProcError.static_type_reset

/-- Modelled from the spec: process::declare_configuration_key
(process.h lines 865-876). -/
def declare_configuration_key (s : ProcState) (key : String) (def_val : String)
    (description : String) (tunable : Bool) : ProcState :=
  { s with conf_keys := setA key ⟨def_val, description, tunable⟩ s.conf_keys }

/-- Modelled from the spec: process::config_value_raw, reached through
the config_value template of process.h (lines 1105-1111).  Throws
no_such_configuration_key_exception for an undeclared key; otherwise the
value supplied in the configuration (as possibly updated by
reconfiguration) or, failing that, the declared default.  Values stay
string-encoded; the typed conversion of config_cast is outside the
model. -/
def config_value (s : ProcState) (key : String) : Except ProcError String :=
  match lookupA key s.conf_keys with
  | Option.none => Except.error ProcError.no_such_configuration_key
  | Option.some info =>
    match lookupA key s.conf_values with
    | Option.some v => Except.ok v
    | Option.none => Except.ok info.defVal

/-- Modelled from the spec: process::reconfigure (process.h line 1096;
spec section 4.1): applies the supplied values only to keys declared
tunable; changes to non-tunable or undeclared keys are ignored. -/
def reconfigure (s : ProcState) (conf : List (String × String)) : ProcState :=
  { s with conf_values := conf.foldl (fun vals kv =>
      match lookupA kv.1 s.conf_keys with
      | Option.some info => if info.tunable then setA kv.1 kv.2 vals else vals
      | Option.none => vals) s.conf_values }

/-- Modelled from the spec: process::has_input_port_edge (process.h
lines 906-917): whether an edge is bound to the given input port. -/
def has_input_port_edge (s : ProcState) (port : String) : Bool :=
  (lookupA port s.input_edges).isSome

/-- Modelled from the spec: process::is_static_input (process.h line
1091): whether the input port carries flag_input_static. -/
def is_static_input (s : ProcState) (port : String) : Bool :=
  match lookupA port s.input_port_infos with
  | Option.some info => info.flags.contains PortFlag.input_static
  | Option.none => false

/-- The configuration key consulted for an unconnected static input:
the static-input marker prepended to the port name (process.h lines
555-579: the config entry is named "static/port_name", formed in
grab_input_as as the static-input marker concatenated with the port). -/
def static_input_key (port : String) : String := "static/" ++ port

/-- Modelled from the spec: process::grab_datum_from_port narrowed to
its payload, as used by the grab_from_port_as template (process.h lines
1113-1119): pops the head datum of the bound edge of the port and returns its
payload.  The source leaves the value undefined when no input is
available (process.h lines 971-973); the model reports that case as a
missing-datum error. -/
def grab_from_port_as (s : ProcState) (port : String) :
    Except ProcError (String × ProcState) :=
  match lookupA port s.input_edges with
  | Option.some (d :: rest) =>
    Except.ok (d.datum.payload, { s with input_edges := setA port rest s.input_edges })
  | Option.some [] => Except.error ProcError.missing_datum
  | Option.none => Except.error ProcError.no_such_port

/-- process::grab_input_as, embedded from its inline template body
(process.h lines 1121-1132): when the port is a static input with no
bound edge the value comes from the configuration under the
static-input key; otherwise it behaves exactly as grab_from_port_as. -/
def grab_input_as (s : ProcState) (port : String) :
    Except ProcError (String × ProcState) :=
  if is_static_input s port && !(has_input_port_edge s port) then
    (config_value s ( static_input_key port)).map (fun v => (v, s))
  else
    grab_from_port_as s port

/-- The head datums of the required, bound input ports, in declaration
order (the non-destructive peek feeding the sync checker, spec section
4.2). -/
def required_input_heads (s : ProcState) : List EdgeDatum :=
  s.input_port_infos.filterMap (fun pi =>
    if pi.2.flags.contains PortFlag.required then
      (lookupA pi.1 s.input_edges).bind List.head?
    else Option.none)

/-- Modelled from the spec: the engine drain of the required inputs on
a data fault — each required bound input is popped by the declared
frequency of that port (spec section 4.2; process.h lines 1061-1065: all
required inputs are grabbed from based on the relative frequency of the
ports). -/
def drain_required (s : ProcState) : ProcState :=
  { s with input_edges := map_vals (fun p e =>
      match lookupA p s.input_port_infos with
      | Option.some info =>
        if info.flags.contains PortFlag.required then e.drop info.frequency else e
      | Option.none => e) s.input_edges }

/-- Modelled from the spec: pushing one datum to every bound output
edge of every output port (fan-out appends the datum to each edge). -/
def push_to_all_outputs (s : ProcState) (d : EdgeDatum) : ProcState :=
  { s with output_edges := map_vals (fun _ es => es.map (fun e => e ++ [d])) s.output_edges }

/-- The fault datum pushed on a synchronization error (process.h lines
1061-1064: "an error datum is pushed to all output ports"). -/
def fault_edge_datum : EdgeDatum :=
  { datum := { type := DatumType.error, payload := "Data is not synchronized." }, pos := 0 }

/-- The datum synthesized when propagating a non-ordinary status at the
check_valid level (spec section 4.2). -/
def status_edge_datum (t : DatumType) : EdgeDatum :=
  { datum := { type := t, payload := "" }, pos := 0 }

/-- What a step() call did, as observed by the engine: either the
subclass step hook was invoked, or the engine handled the call itself
(completed no-op, synchronization fault, or status propagation). -/
inductive StepOutcome where
  | hook_invoked
  | complete_noop
  | sync_fault
  | status_propagated (t : DatumType)
deriving DecidableEq, Repr

/-- Modelled from the spec: process::step (process.h lines 301-313 and
1056-1078; spec sections 4.1 and 4.2).  Per the throw clauses, an
unconfigured process signals unconfigured_exception and an uninitialized
one uninitialized_exception.  A completed process is a no-op.  With
required bound inputs present and checking at least check_sync, a
desynchronized peek pushes the fault datum to every bound output edge
and drains the required inputs, skipping the hook; at check_valid a
non-ordinary aggregate status is propagated to every bound output edge
instead (and a complete status marks the process complete).  Otherwise
the subclass step hook is invoked. -/
def step (s : ProcState) : Except ProcError (StepOutcome × ProcState) :=
  if s.configured = false then Except.error ProcError.unconfigured
  else if s.initialized = false then Except.error ProcError.uninitialized
  else if s.is_complete then Except.ok (StepOutcome.complete_noop, s)
  else
    let req := required_input_heads s
    if req.isEmpty then Except.ok (StepOutcome.hook_invoked, s)
    else if s.check_level = data_check_t.check_none then
      Except.ok (StepOutcome.hook_invoked, s)
    else
      let info := edge_data_info req
      if info.in_sync = false then
        Except.ok (StepOutcome.sync_fault,
          push_to_all_outputs (drain_required s) fault_edge_datum)
      else if s.check_level = data_check_t.check_valid ∧
              info.max_status ≠ DatumType.data then
        let s2 := push_to_all_outputs (drain_required s) (status_edge_datum info.max_status)
        let s3 := if info.max_status = DatumType.complete then
            { s2 with is_complete := true } else s2
        Except.ok (StepOutcome.status_propagated info.max_status, s3)
      else Except.ok (StepOutcome.hook_invoked, s)

/-- Iterated stepping, recording the outcome of every call. -/
def step_trace : Nat → ProcState → Except ProcError (List StepOutcome × ProcState)
  | 0, s => Except.ok ([], s)
  | n + 1, s =>
    match step s with
    | Except.error e => Except.error e
    | Except.ok (o, s2) =>
      match step_trace n s2 with
      | Except.error e => Except.error e
      | Except.ok (os, s3) => Except.ok (o :: os, s3)

theorem edge_data_info_in_sync_iff (fst : EdgeDatum) (rest : List EdgeDatum) :
    (edge_data_info (fst :: rest)).in_sync = true ↔
    ∀ d1 ∈ fst :: rest, ∀ d2 ∈ fst :: rest, d1.pos = d2.pos := by
  simp only [edge_data_info, List.all_eq_true, beq_iff_eq]
  constructor
  · intro h d1 hd1 d2 hd2
    have g1 : d1.pos = fst.pos := by
      rcases List.mem_cons.mp hd1 with h1 | h1
      · rw [h1]
      · exact h d1 h1
    have g2 : d2.pos = fst.pos := by
      rcases List.mem_cons.mp hd2 with h2 | h2
      · rw [h2]
      · exact h d2 h2
    rw [g1, g2]
  · intro h d hd
    exact h d (List.mem_cons_of_mem _ hd) fst (List.mem_cons_self _ _)

theorem edge_data_info_not_sync {data : List EdgeDatum} {d1 d2 : EdgeDatum}
    (h1 : d1 ∈ data) (h2 : d2 ∈ data) (hne : d1.pos ≠ d2.pos) :
    (edge_data_info data).in_sync = false := by
  have hnn : data ≠ [] := List.ne_nil_of_mem h1
  obtain ⟨fst, rest, rfl⟩ := List.exists_cons_of_ne_nil hnn
  cases hb : (edge_data_info (fst :: rest)).in_sync
  · rfl
  · exact absurd ((edge_data_info_in_sync_iff fst rest).mp hb d1 h1 d2 h2) hne

theorem edge_data_info_max_ub (fst : EdgeDatum) (rest : List EdgeDatum) :
    ∀ d ∈ fst :: rest,
      sev d.datum.type ≤ sev (edge_data_info (fst :: rest)).max_status := by
  intro d hd
  have h := foldl_max_dt_ub rest fst.datum.type
  rcases List.mem_cons.mp hd with h1 | h1
  · subst h1
    simpa [edge_data_info] using h.1
  · simpa [edge_data_info] using h.2 d h1

theorem edge_data_info_max_mem (fst : EdgeDatum) (rest : List EdgeDatum) :
    ∃ d ∈ fst :: rest, d.datum.type = (edge_data_info (fst :: rest)).max_status := by
  rcases foldl_max_dt_cases rest fst.datum.type with h | h
  · exact ⟨fst, List.mem_cons_self _ _, by simp [edge_data_info, h]⟩
  · rcases h with ⟨d, hd, hv⟩
    exact ⟨d, List.mem_cons_of_mem _ hd, by simp [edge_data_info, hv]⟩

theorem edge_data_info_max_ne_data {data : List EdgeDatum} {d : EdgeDatum}
    (hd : d ∈ data) (hne : d.datum.type ≠ DatumType.data) :
    (edge_data_info data).max_status ≠ DatumType.data := by
  have hnn : data ≠ [] := List.ne_nil_of_mem hd
  obtain ⟨fst, rest, rfl⟩ := List.exists_cons_of_ne_nil hnn
  have hub := edge_data_info_max_ub fst rest d hd
  have hpos : 1 ≤ sev d.datum.type := by
    cases h : d.datum.type
    · exact absurd h hne
    · simp [sev]
    · simp [sev]
    · simp [sev]
  intro hmax
  rw [hmax] at hub
  have h0 : sev DatumType.data = 0 := rfl
  rw [h0] at hub
  omega

/-- C4: the data-synchronization checker returns in_sync = true iff all
peeked datums share the same position marker, and max_status is the
highest-severity status present under the total order
ordinary-data < empty < error < complete, with complete dominating any
combination. -/
theorem C4_edge_data_info_correct (data : List EdgeDatum) (h : data ≠ []) :
    ((edge_data_info data).in_sync = true ↔
       ∀ d1 ∈ data, ∀ d2 ∈ data, d1.pos = d2.pos)
  ∧ (∀ d ∈ data, sev d.datum.type ≤ sev (edge_data_info data).max_status)
  ∧ (∃ d ∈ data, d.datum.type = (edge_data_info data).max_status)
  ∧ ((∃ d ∈ data, d.datum.type = DatumType.complete) →
       (edge_data_info data).max_status = DatumType.complete) := by
  obtain ⟨fst, rest, rfl⟩ := List.exists_cons_of_ne_nil h
  refine ⟨edge_data_info_in_sync_iff fst rest, edge_data_info_max_ub fst rest,
          edge_data_info_max_mem fst rest, ?_⟩
  rintro ⟨d, hd, hc⟩
  have hub := edge_data_info_max_ub fst rest d hd
  rw [hc] at hub
  have hle := sev_le_three (edge_data_info (fst :: rest)).max_status
  have hc3 : sev DatumType.complete = 3 := rfl
  rw [hc3] at hub
  have hmax : sev (edge_data_info (fst :: rest)).max_status = 3 := by omega
  exact sev_inj (hmax.trans hc3.symm)

/-- Witness for C4 at a concrete two-element peek. -/
theorem C4_witness :
    ([⟨⟨DatumType.empty, "x"⟩, 5⟩, ⟨⟨DatumType.complete, "y"⟩, 5⟩] : List EdgeDatum) ≠ [] ∧
    ((edge_data_info [⟨⟨DatumType.empty, "x"⟩, 5⟩, ⟨⟨DatumType.complete, "y"⟩, 5⟩]).in_sync = true ↔
       ∀ d1 ∈ ([⟨⟨DatumType.empty, "x"⟩, 5⟩, ⟨⟨DatumType.complete, "y"⟩, 5⟩] : List EdgeDatum),
       ∀ d2 ∈ ([⟨⟨DatumType.empty, "x"⟩, 5⟩, ⟨⟨DatumType.complete, "y"⟩, 5⟩] : List EdgeDatum),
         d1.pos = d2.pos) := by
  constructor
  · decide
  · exact (C4_edge_data_info_correct _ (by decide)).1

instance exceptDecEq {ε α : Type} [DecidableEq ε] [DecidableEq α] :
    DecidableEq (Except ε α)
  | Except.error e1, Except.error e2 =>
    if h : e1 = e2 then Decidable.isTrue (by rw [h]) else Decidable.isFalse (by simp [h])
  | Except.error _, Except.ok _ => Decidable.isFalse (by simp)
  | Except.ok _, Except.error _ => Decidable.isFalse (by simp)
  | Except.ok a1, Except.ok a2 =>
    if h : a1 = a2 then Decidable.isTrue (by rw [h]) else Decidable.isFalse (by simp [h])

/-- A freshly created process: nothing configured, nothing declared. -/
def proc0 : ProcState :=
  { configured := false
    initialized := false
    is_complete := false
    check_level := data_check_t.check_valid
    input_port_infos := []
    output_port_infos := []
    input_edges := []
    output_edges := []
    flow_resolved := []
    conf_keys := []
    conf_values := [] }

/-- A configured-and-initialized process with no ports. -/
def procInit : ProcState := { proc0 with configured := true, initialized := true }

/-- C1 (amended): lifecycle misuse is signalled exactly as the throw
clauses of process.h state: step() on a configured but uninitialized
process fails with uninitialized; step() before configure() fails with
unconfigured; init() before configure() fails with unconfigured; a
second init() fails with reinitialization; a second configure() fails
with the already-configured (reconfigured) error.  Each failure is
returned immediately, with no retry and no state change. -/
theorem C1_lifecycle_misuse (s : ProcState) :
    (s.configured = true → s.initialized = false →
       step s = Except.error ProcError.uninitialized)
  ∧ (s.configured = false → step s = Except.error ProcError.unconfigured)
  ∧ (s.configured = false → init s = Except.error ProcError.unconfigured)
  ∧ (s.configured = true → s.initialized = true →
       init s = Except.error ProcError.reinitialization)
  ∧ (s.configured = true → configure s = Except.error ProcError.reconfigured) := by
  refine ⟨?_, ?_, ?_, ?_, ?_⟩
  · intro h1 h2
    simp [step, h1, h2]
  · intro h1
    simp [step, h1]
  · intro h1
    simp [init, h1]
  · intro h1 h2
    simp [init, h1, h2]
  · intro h1
    simp [configure, h1]

/-- Witness for C1 at concrete states. -/
theorem C1_witness :
    step { proc0 with configured := true } = Except.error ProcError.uninitialized ∧
    init proc0 = Except.error ProcError.unconfigured ∧
    init procInit = Except.error ProcError.reinitialization ∧
    configure procInit = Except.error ProcError.reconfigured :=
  ⟨(C1_lifecycle_misuse _).1 rfl rfl,
   (C1_lifecycle_misuse _).2.2.1 rfl,
   (C1_lifecycle_misuse _).2.2.2.1 rfl rfl,
   (C1_lifecycle_misuse _).2.2.2.2 rfl⟩

/-- C1 counterexample: on a freshly created process (before configure),
step() fails with the unconfigured error, not the uninitialized error
the claim names for every pre-init step() call. -/
theorem C1_counterexample :
    step proc0 = Except.error ProcError.unconfigured ∧
    step proc0 ≠ Except.error ProcError.uninitialized := by
  constructor
  · rfl
  · decide

/-- C8: mark_process_as_complete() is idempotent and permanent: once
called on an initialized process, every subsequent step() call is a
completed no-op that never invokes the step hook and leaves the state
unchanged, for the remainder of the life of the process. -/
theorem C8_complete_permanent (s : ProcState) (h1 : s.configured = true)
    (h2 : s.initialized = true) :
    mark_process_as_complete (mark_process_as_complete s) = mark_process_as_complete s
  ∧ ∀ n : Nat, step_trace n (mark_process_as_complete s) =
      Except.ok (List.replicate n StepOutcome.complete_noop, mark_process_as_complete s) := by
  constructor
  · simp [mark_process_as_complete]
  · intro n
    induction n with
    | zero => simp [step_trace]
    | succ k ih =>
      have hstep : step (mark_process_as_complete s) =
          Except.ok (StepOutcome.complete_noop, mark_process_as_complete s) := by
        simp [step, mark_process_as_complete, h1, h2]
      simp [step_trace, hstep, ih, List.replicate_succ]

/-- Witness for C8: two steps after completion on a concrete process. -/
theorem C8_witness :
    step_trace 2 (mark_process_as_complete procInit) =
      Except.ok ([StepOutcome.complete_noop, StepOutcome.complete_noop],
                 mark_process_as_complete procInit) := by
  have h := (C8_complete_permanent procInit rfl rfl).2 2
  simpa using h

theorem reconfigure_skips_nontunable (s : ProcState) (key D dsc : String)
    (conf : List (String × String))
    (h : lookupA key s.conf_keys = Option.some ⟨D, dsc, false⟩) :
    lookupA key (reconfigure s conf).conf_values = lookupA key s.conf_values := by
  show lookupA key (conf.foldl _ s.conf_values) = lookupA key s.conf_values
  generalize s.conf_values = vals
  induction conf generalizing vals with
  | nil => rfl
  | cons kv rest ih =>
    obtain ⟨k, v⟩ := kv
    by_cases hk : k = key
    · subst hk
      simp only [List.foldl_cons, h]
      exact ih vals
    · simp only [List.foldl_cons]
      cases hc : lookupA k s.conf_keys with
      | none => exact ih vals
      | some info =>
        by_cases ht : info.tunable
        · simp only [ht, if_true]
          rw [ih (setA k v vals), lookupA_setA_ne key k v vals hk]
        · simp only [ht, if_false]
          exact ih vals

/-- C9: a config key declared with default D and never set yields D on
lookup; a tunable key reconfigured to V after init() yields V on
subsequent lookups; and reconfiguration attempts leave the value of a
non-tunable key unchanged after initialization. -/
theorem C9_config_registry (s : ProcState) (key D dsc V : String) (tb : Bool)
    (conf : List (String × String)) :
    (lookupA key s.conf_keys = Option.some ⟨D, dsc, tb⟩ →
       lookupA key s.conf_values = Option.none →
       config_value s key = Except.ok D)
  ∧ (s.initialized = true → lookupA key s.conf_keys = Option.some ⟨D, dsc, true⟩ →
       config_value (reconfigure s [(key, V)]) key = Except.ok V)
  ∧ (s.initialized = true → lookupA key s.conf_keys = Option.some ⟨D, dsc, false⟩ →
       config_value (reconfigure s conf) key = config_value s key) := by
  refine ⟨?_, ?_, ?_⟩
  · intro h hv
    simp [config_value, h, hv]
  · intro hini h
    have hvals : (reconfigure s [(key, V)]).conf_values = setA key V s.conf_values := by
      simp [reconfigure, h]
    have hkeys : (reconfigure s [(key, V)]).conf_keys = s.conf_keys := rfl
    simp [config_value, hkeys, hvals, h, lookupA_setA_self]
  · intro hini h
    have hvals := reconfigure_skips_nontunable s key D dsc conf h
    have hkeys : (reconfigure s conf).conf_keys = s.conf_keys := rfl
    simp [config_value, hkeys, hvals, h]

/-- A process used as the C9 witness: one tunable and one non-tunable
declared key, initialized, nothing set in the snapshot. -/
def procConf : ProcState :=
  declare_configuration_key
    (declare_configuration_key procInit "threshold" "0.5" "" true)
    "mode" "fast" "" false

/-- Witness for C9 at concrete keys: the default is returned for the
untouched key, the tunable key follows the reconfigured value, and the
non-tunable key ignores the reconfiguration attempt. -/
theorem C9_witness :
    config_value procConf "mode" = Except.ok "fast" ∧
    config_value (reconfigure procConf [("threshold", "0.9")]) "threshold" =
      Except.ok "0.9" ∧
    config_value (reconfigure procConf [("mode", "slow")]) "mode" =
      config_value procConf "mode" :=
  ⟨(C9_config_registry procConf "mode" "fast" "" "" false []).1 rfl rfl,
   (C9_config_registry procConf "threshold" "0.5" "" "0.9" true []).2.1 rfl rfl,
   (C9_config_registry procConf "mode" "fast" "" "" false [("mode", "slow")]).2.2 rfl rfl⟩

/-- C10: for an input port flagged input-static with no bound edge,
grab_input_as returns the configuration value under the key formed by
prefixing the port name with the static-input marker "static/"; for a
port with a bound edge, or one not flagged static, it returns exactly
what grab_from_port_as returns. -/
theorem C10_grab_input_as_dispatch (s : ProcState) (port : String) (info : port_info)
    (h : lookupA port s.input_port_infos = Option.some info) :
    (info.flags.contains PortFlag.input_static = true →
       lookupA port s.input_edges = Option.none →
       grab_input_as s port =
         (config_value s ("static/" ++ port)).map (fun v => (v, s)))
  ∧ (∀ e, lookupA port s.input_edges = Option.some e →
       grab_input_as s port = grab_from_port_as s port)
  ∧ (info.flags.contains PortFlag.input_static = false →
       grab_input_as s port = grab_from_port_as s port) := by
  refine ⟨?_, ?_, ?_⟩
  · intro hs he
    have hs2 : PortFlag.input_static ∈ info.flags := by simpa using hs
    simp [grab_input_as, is_static_input, has_input_port_edge, static_input_key, h, hs2, he]
  · intro e he
    simp [grab_input_as, is_static_input, has_input_port_edge, h, he]
  · intro hs
    have hs2 : PortFlag.input_static ∉ info.flags := by simpa using hs
    simp [grab_input_as, is_static_input, has_input_port_edge, h, hs2]

/-- A process used as the C10 witness: a static input "rate" with no
edge and its static config entry, and a connected plain input "img". -/
def procStatic : ProcState :=
  { procInit with
      input_port_infos :=
        [("rate", { type := PortType.concrete "double", flags := [PortFlag.input_static],
                    description := "", frequency := 1 }),
         ("img", { type := PortType.concrete "image", flags := [],
                   description := "", frequency := 1 })]
      input_edges := [("img", [⟨⟨DatumType.data, "frame0"⟩, 0⟩])]
      conf_keys := [("static/rate", ⟨"2.5", "", false⟩)] }

/-- Witness for C10 at concrete ports. -/
theorem C10_witness :
    grab_input_as procStatic "rate" =
      (config_value procStatic ("static/" ++ "rate")).map (fun v => (v, procStatic)) ∧
    grab_input_as procStatic "img" = grab_from_port_as procStatic "img" :=
  ⟨(C10_grab_input_as_dispatch procStatic "rate" _ rfl).1 rfl rfl,
   (C10_grab_input_as_dispatch procStatic "img" _ rfl).2.1 _ rfl⟩

theorem mem_required_input_heads {s : ProcState} {p : String} {info : port_info}
    {e : Edge} {d : EdgeDatum}
    (hp : lookupA p s.input_port_infos = Option.some info)
    (hr : info.flags.contains PortFlag.required = true)
    (he : lookupA p s.input_edges = Option.some e)
    (hh : e.head? = Option.some d) :
    d ∈ required_input_heads s := by
  unfold required_input_heads
  apply List.mem_filterMap.mpr
  refine ⟨(p, info), lookupA_mem hp, ?_⟩
  have hr2 : PortFlag.required ∈ info.flags := by simpa using hr
  simp [hr2, he, hh]

/-- C2: on an initialized, non-complete process checking at least
check_sync, when the head datums of two required bound inputs carry different
position markers, step() appends exactly one fault datum (an error
datum) to every bound output edge, drains every required bound input —
in particular each mismatched one — by the declared frequency of that port,
and does not invoke the step hook (the outcome is the engine
sync-fault handling, not a hook invocation). -/
theorem C2_step_sync_fault (s : ProcState) (p1 p2 : String)
    {i1 i2 : port_info} {e1 e2 : Edge} {d1 d2 : EdgeDatum}
    (hcfg : s.configured = true) (hini : s.initialized = true)
    (hcmp : s.is_complete = false)
    (hlvl : s.check_level ≠ data_check_t.check_none)
    (hp1 : lookupA p1 s.input_port_infos = Option.some i1)
    (hr1 : i1.flags.contains PortFlag.required = true)
    (he1 : lookupA p1 s.input_edges = Option.some e1)
    (hh1 : e1.head? = Option.some d1)
    (hp2 : lookupA p2 s.input_port_infos = Option.some i2)
    (hr2 : i2.flags.contains PortFlag.required = true)
    (he2 : lookupA p2 s.input_edges = Option.some e2)
    (hh2 : e2.head? = Option.some d2)
    (hne : d1.pos ≠ d2.pos) :
    ∃ s2, step s = Except.ok (StepOutcome.sync_fault, s2)
      ∧ fault_edge_datum.datum.type = DatumType.error
      ∧ (∀ p es, lookupA p s.output_edges = Option.some es →
           lookupA p s2.output_edges =
             Option.some (es.map (fun e => e ++ [fault_edge_datum])))
      ∧ (∀ p info e, lookupA p s.input_port_infos = Option.some info →
           info.flags.contains PortFlag.required = true →
           lookupA p s.input_edges = Option.some e →
           lookupA p s2.input_edges = Option.some (e.drop info.frequency)) := by
  have hm1 := mem_required_input_heads hp1 hr1 he1 hh1
  have hm2 := mem_required_input_heads hp2 hr2 he2 hh2
  have hsync := edge_data_info_not_sync hm1 hm2 hne
  have hnonempty : (required_input_heads s).isEmpty = false := by
    cases hE : required_input_heads s
    · rw [hE] at hm1
      simp at hm1
    · simp
  have hstep : step s = Except.ok (StepOutcome.sync_fault,
      push_to_all_outputs (drain_required s) fault_edge_datum) := by
    simp [step, hcfg, hini, hcmp, hnonempty, hlvl, hsync]
  refine ⟨_, hstep, rfl, ?_, ?_⟩
  · intro p es hes
    simp [push_to_all_outputs, drain_required, lookupA_map_vals, hes]
  · intro p info e hp hr he
    have hr3 : PortFlag.required ∈ info.flags := by simpa using hr
    simp [push_to_all_outputs, drain_required, lookupA_map_vals, he, hp, hr3]

/-- The C2 witness process: check_sync, required inputs a and b whose
head datums carry position markers 3 and 4, one bound output edge. -/
def procC2 : ProcState :=
  { procInit with
      check_level := data_check_t.check_sync
      input_port_infos :=
        [("a", { type := PortType.concrete "int", flags := [PortFlag.required],
                 description := "", frequency := 1 }),
         ("b", { type := PortType.concrete "int", flags := [PortFlag.required],
                 description := "", frequency := 1 })]
      output_port_infos :=
        [("out", { type := PortType.concrete "int", flags := [],
                   description := "", frequency := 1 })]
      input_edges :=
        [("a", [⟨⟨DatumType.data, "x"⟩, 3⟩]), ("b", [⟨⟨DatumType.data, "y"⟩, 4⟩])]
      output_edges := [("out", [[]])] }

/-- Witness for C2 at the concrete process procC2. -/
theorem C2_witness :
    ∃ s2, step procC2 = Except.ok (StepOutcome.sync_fault, s2)
      ∧ fault_edge_datum.datum.type = DatumType.error
      ∧ (∀ p es, lookupA p procC2.output_edges = Option.some es →
           lookupA p s2.output_edges =
             Option.some (es.map (fun e => e ++ [fault_edge_datum])))
      ∧ (∀ p info e, lookupA p procC2.input_port_infos = Option.some info →
           info.flags.contains PortFlag.required = true →
           lookupA p procC2.input_edges = Option.some e →
           lookupA p s2.input_edges = Option.some (e.drop info.frequency)) :=
  C2_step_sync_fault procC2 "a" "b" rfl rfl rfl (by decide)
    rfl (by decide) rfl rfl rfl (by decide) rfl rfl (by decide)

/-- C3 (amended): on an initialized process at checking level valid
whose required bound inputs are in sync, if the aggregate status over
their head datums is not ordinary, step() synthesizes the corresponding
status datum (the maximum status), propagates it to every bound output
edge, drains the required inputs by their declared frequencies, and
skips the step hook; the call returns normally, never as a failure.
When the inputs are additionally desynchronized, the sync-fault path
takes precedence and an error datum is pushed instead. -/
theorem C3_step_valid_propagates (s : ProcState)
    (hcfg : s.configured = true) (hini : s.initialized = true)
    (hcmp : s.is_complete = false)
    (hlvl : s.check_level = data_check_t.check_valid)
    (hne : required_input_heads s ≠ [])
    (hsync : ∀ d1 ∈ required_input_heads s, ∀ d2 ∈ required_input_heads s,
       d1.pos = d2.pos)
    (hbad : ∃ d ∈ required_input_heads s, d.datum.type ≠ DatumType.data) :
    ∃ s2, step s = Except.ok (StepOutcome.status_propagated
          (edge_data_info (required_input_heads s)).max_status, s2)
      ∧ (status_edge_datum (edge_data_info (required_input_heads s)).max_status).datum.type
          = (edge_data_info (required_input_heads s)).max_status
      ∧ (∀ p es, lookupA p s.output_edges = Option.some es →
           lookupA p s2.output_edges = Option.some (es.map (fun e => e ++
             [status_edge_datum (edge_data_info (required_input_heads s)).max_status])))
      ∧ (∀ p info e, lookupA p s.input_port_infos = Option.some info →
           info.flags.contains PortFlag.required = true →
           lookupA p s.input_edges = Option.some e →
           lookupA p s2.input_edges = Option.some (e.drop info.frequency)) := by
  obtain ⟨d, hd, hdne⟩ := hbad
  have hmax : (edge_data_info (required_input_heads s)).max_status ≠ DatumType.data :=
    edge_data_info_max_ne_data hd hdne
  obtain ⟨fst, rest, hE⟩ := List.exists_cons_of_ne_nil hne
  have hinsync : (edge_data_info (required_input_heads s)).in_sync = true := by
    rw [hE]
    apply (edge_data_info_in_sync_iff fst rest).mpr
    rw [hE] at hsync
    exact hsync
  have hnonempty : (required_input_heads s).isEmpty = false := by
    rw [hE]
    simp
  have hstep : step s = Except.ok (StepOutcome.status_propagated
      (edge_data_info (required_input_heads s)).max_status,
      if (edge_data_info (required_input_heads s)).max_status = DatumType.complete then
        { push_to_all_outputs (drain_required s)
            (status_edge_datum (edge_data_info (required_input_heads s)).max_status) with
          is_complete := true }
      else push_to_all_outputs (drain_required s)
        (status_edge_datum (edge_data_info (required_input_heads s)).max_status)) := by
    simp [step, hcfg, hini, hcmp, hnonempty, hlvl, hinsync, hmax]
  refine ⟨_, hstep, rfl, ?_, ?_⟩
  · intro p es hes
    by_cases hcomp : (edge_data_info (required_input_heads s)).max_status = DatumType.complete
    · simp [hcomp, push_to_all_outputs, drain_required, lookupA_map_vals, hes]
    · simp [hcomp, push_to_all_outputs, drain_required, lookupA_map_vals, hes]
  · intro p info e hp hr he
    have hr3 : PortFlag.required ∈ info.flags := by simpa using hr
    by_cases hcomp : (edge_data_info (required_input_heads s)).max_status = DatumType.complete
    · simp [hcomp, push_to_all_outputs, drain_required, lookupA_map_vals, he, hp, hr3]
    · simp [hcomp, push_to_all_outputs, drain_required, lookupA_map_vals, he, hp, hr3]

/-- The C3 witness process: check_valid, required inputs a and b in
sync at position 6, with an error datum at the head of b. -/
def procC3w : ProcState :=
  { procC2 with
      check_level := data_check_t.check_valid
      input_edges :=
        [("a", [⟨⟨DatumType.data, "x"⟩, 6⟩]), ("b", [⟨⟨DatumType.error, ""⟩, 6⟩])] }

/-- Witness for C3 at the concrete process procC3w. -/
theorem C3_witness :
    ∃ s2, step procC3w = Except.ok (StepOutcome.status_propagated
          (edge_data_info (required_input_heads procC3w)).max_status, s2)
      ∧ (status_edge_datum (edge_data_info (required_input_heads procC3w)).max_status).datum.type
          = (edge_data_info (required_input_heads procC3w)).max_status
      ∧ (∀ p es, lookupA p procC3w.output_edges = Option.some es →
           lookupA p s2.output_edges = Option.some (es.map (fun e => e ++
             [status_edge_datum (edge_data_info (required_input_heads procC3w)).max_status])))
      ∧ (∀ p info e, lookupA p procC3w.input_port_infos = Option.some info →
           info.flags.contains PortFlag.required = true →
           lookupA p procC3w.input_edges = Option.some e →
           lookupA p s2.input_edges = Option.some (e.drop info.frequency)) :=
  C3_step_valid_propagates procC3w rfl rfl rfl rfl (by decide) (by decide)
    ⟨⟨⟨DatumType.error, ""⟩, 6⟩, by decide, by decide⟩

/-- The C3 counterexample process: check_valid, required inputs whose
head datums are desynchronized (positions 0 and 1) and include a
complete status. -/
def procC3cex : ProcState :=
  { procC2 with
      check_level := data_check_t.check_valid
      input_edges :=
        [("a", [⟨⟨DatumType.complete, ""⟩, 0⟩]), ("b", [⟨⟨DatumType.data, "7"⟩, 1⟩])] }

/-- The state procC3cex reaches after one step: both required inputs
drained, a single error datum on the bound output edge. -/
def procC3cexAfter : ProcState :=
  { procC3cex with
      input_edges := [("a", []), ("b", [])]
      output_edges := [("out", [[fault_edge_datum]])] }

/-- C3 counterexample: at procC3cex the aggregate status over the
required inputs is complete (not ordinary), yet step() takes the
sync-fault path and pushes an error datum — not the corresponding
complete status datum the claim requires — to the bound output edge. -/
theorem C3_counterexample :
    (edge_data_info (required_input_heads procC3cex)).max_status = DatumType.complete ∧
    (edge_data_info (required_input_heads procC3cex)).in_sync = false ∧
    step procC3cex = Except.ok (StepOutcome.sync_fault, procC3cexAfter) ∧
    lookupA "out" procC3cexAfter.output_edges = Option.some [[fault_edge_datum]] ∧
    fault_edge_datum.datum.type = DatumType.error ∧
    DatumType.error ≠ DatumType.complete := by
  refine ⟨by decide, by decide, by decide, by decide, rfl, by decide⟩

/-- Ports used to exercise type negotiation: three flow-dependent input
ports sharing the tag grp, plus a concretely typed input port. -/
def procFlow : ProcState :=
  { proc0 with
      configured := true
      input_port_infos :=
        [("p1", { type := PortType.flow_dependent "grp", flags := [],
                  description := "", frequency := 1 }),
         ("p2", { type := PortType.flow_dependent "grp", flags := [],
                  description := "", frequency := 1 }),
         ("p3", { type := PortType.flow_dependent "grp", flags := [],
                  description := "", frequency := 1 }),
         ("c", { type := PortType.concrete "int", flags := [],
                 description := "", frequency := 1 })] }

/-- C5: for co-tagged flow-dependent input ports P1, P2, P3, a
successful resolution of P2 to concrete type T makes all three read as
T; a later attempt to resolve P1 to a different concrete type T2
returns false and leaves the state — hence the resolved type T on all
three — unchanged: resolution of a co-tagged equivalence class is
one-directional and permanent. -/
theorem C5_cotag_resolution (acc2 : Bool) (s : ProcState)
    (p1 p2 p3 tag T T2 : String) {i1 i2 i3 : port_info}
    (hini : s.initialized = false)
    (htag : tag ≠ "")
    (h1 : lookupA p1 s.input_port_infos = Option.some i1)
    (ht1 : i1.type = PortType.flow_dependent tag)
    (h2 : lookupA p2 s.input_port_infos = Option.some i2)
    (ht2 : i2.type = PortType.flow_dependent tag)
    (h3 : lookupA p3 s.input_port_infos = Option.some i3)
    (ht3 : i3.type = PortType.flow_dependent tag)
    (hres : lookupA tag s.flow_resolved = Option.none)
    (hT2 : T2 ≠ T) :
    ∃ s2, set_input_port_type true s p2 T = Except.ok (true, s2)
      ∧ input_port_info s2 p1 = Except.ok { i1 with type := PortType.concrete T }
      ∧ input_port_info s2 p2 = Except.ok { i2 with type := PortType.concrete T }
      ∧ input_port_info s2 p3 = Except.ok { i3 with type := PortType.concrete T }
      ∧ set_input_port_type acc2 s2 p1 T2 = Except.ok (false, s2) := by
  have hT2b : T ≠ T2 := Ne.symm hT2
  have hstep : set_input_port_type true s p2 T =
      Except.ok (true, { s with flow_resolved := setA tag T s.flow_resolved }) := by
    simp [set_input_port_type, hini, h2, ht2, htag, hres]
  refine ⟨_, hstep, ?_, ?_, ?_, ?_⟩
  · simp [input_port_info, h1, ht1, resolved_port_type, lookupA_setA_self]
  · simp [input_port_info, h2, ht2, resolved_port_type, lookupA_setA_self]
  · simp [input_port_info, h3, ht3, resolved_port_type, lookupA_setA_self]
  · simp [set_input_port_type, hini, h1, ht1, htag, lookupA_setA_self, hT2b]

/-- Witness for C5 at the concrete process procFlow. -/
theorem C5_witness :
    ∃ s2, set_input_port_type true procFlow "p2" "image" = Except.ok (true, s2)
      ∧ input_port_info s2 "p1" = Except.ok
          { type := PortType.concrete "image", flags := [], description := "", frequency := 1 }
      ∧ input_port_info s2 "p2" = Except.ok
          { type := PortType.concrete "image", flags := [], description := "", frequency := 1 }
      ∧ input_port_info s2 "p3" = Except.ok
          { type := PortType.concrete "image", flags := [], description := "", frequency := 1 }
      ∧ set_input_port_type false s2 "p1" "double" = Except.ok (false, s2) :=
  C5_cotag_resolution false procFlow "p1" "p2" "p3" "grp" "image" "double"
    rfl (by decide) rfl rfl rfl rfl rfl rfl rfl (by decide)

/-- C6: set_input_port_type and set_output_port_type signal an error
after initialization; on a port declared with a non-dependent type they
signal the static-type-reset error; and on a dependent port they return
a boolean verdict without raising any error, a refusal (false) leaving
the process unchanged. -/
theorem C6_set_type_protocol (acc : Bool) (s : ProcState) (port T : String) :
    (s.initialized = true →
       set_input_port_type acc s port T =
         Except.error ProcError.set_type_on_initialized_process ∧
       set_output_port_type acc s port T =
         Except.error ProcError.set_type_on_initialized_process)
  ∧ (∀ info, s.initialized = false →
       lookupA port s.input_port_infos = Option.some info →
       port_type_is_dependent info.type = false →
       set_input_port_type acc s port T = Except.error ProcError.static_type_reset)
  ∧ (∀ info, s.initialized = false →
       lookupA port s.output_port_infos = Option.some info →
       port_type_is_dependent info.type = false →
       set_output_port_type acc s port T = Except.error ProcError.static_type_reset)
  ∧ (∀ info, s.initialized = false →
       lookupA port s.input_port_infos = Option.some info →
       port_type_is_dependent info.type = true →
       ∃ b s2, set_input_port_type acc s port T = Except.ok (b, s2) ∧
         (b = false → s2 = s))
  ∧ (∀ info, s.initialized = false →
       lookupA port s.output_port_infos = Option.some info →
       port_type_is_dependent info.type = true →
       ∃ b s2, set_output_port_type acc s port T = Except.ok (b, s2) ∧
         (b = false → s2 = s)) := by
  refine ⟨?_, ?_, ?_, ?_, ?_⟩
  · intro h
    constructor
    · simp [set_input_port_type, h]
    · simp [set_output_port_type, h]
  · intro info hini hinfo hdep
    cases htype : info.type
    · simp [set_input_port_type, hini, hinfo, htype]
    · simp [set_input_port_type, hini, hinfo, htype]
    · simp [set_input_port_type, hini, hinfo, htype]
    · simp [port_type_is_dependent, htype] at hdep
    · simp [port_type_is_dependent, htype] at hdep
  · intro info hini hinfo hdep
    cases htype : info.type
    · simp [set_output_port_type, hini, hinfo, htype]
    · simp [set_output_port_type, hini, hinfo, htype]
    · simp [set_output_port_type, hini, hinfo, htype]
    · simp [port_type_is_dependent, htype] at hdep
    · simp [port_type_is_dependent, htype] at hdep
  · intro info hini hinfo hdep
    cases htype : info.type
    case concrete t => simp [port_type_is_dependent, htype] at hdep
    case type_any => simp [port_type_is_dependent, htype] at hdep
    case type_none => simp [port_type_is_dependent, htype] at hdep
    case data_dependent =>
      cases acc
      · exact ⟨false, s, by simp [set_input_port_type, hini, hinfo, htype], fun _ => rfl⟩
      · exact ⟨true, { s with input_port_infos := setA port { info with type := PortType.concrete T } s.input_port_infos },
          by simp [set_input_port_type, hini, hinfo, htype], by simp⟩
    case flow_dependent tag =>
      by_cases htg : tag = ""
      · cases acc
        · exact ⟨false, s,
            by simp [set_input_port_type, hini, hinfo, htype, htg], fun _ => rfl⟩
        · exact ⟨true, { s with input_port_infos := setA port { info with type := PortType.concrete T } s.input_port_infos },
            by simp [set_input_port_type, hini, hinfo, htype, htg], by simp⟩
      · cases hlk : lookupA tag s.flow_resolved with
        | some t =>
          by_cases heq : t = T
          · exact ⟨true, s,
              by simp [set_input_port_type, hini, hinfo, htype, htg, hlk, heq], fun _ => rfl⟩
          · exact ⟨false, s,
              by simp [set_input_port_type, hini, hinfo, htype, htg, hlk, heq], fun _ => rfl⟩
        | none =>
          cases acc
          · exact ⟨false, s,
              by simp [set_input_port_type, hini, hinfo, htype, htg, hlk], fun _ => rfl⟩
          · exact ⟨true, { s with flow_resolved := setA tag T s.flow_resolved },
              by simp [set_input_port_type, hini, hinfo, htype, htg, hlk], by simp⟩
  · intro info hini hinfo hdep
    cases htype : info.type
    case concrete t => simp [port_type_is_dependent, htype] at hdep
    case type_any => simp [port_type_is_dependent, htype] at hdep
    case type_none => simp [port_type_is_dependent, htype] at hdep
    case data_dependent =>
      cases acc
      · exact ⟨false, s, by simp [set_output_port_type, hini, hinfo, htype], fun _ => rfl⟩
      · exact ⟨true, { s with output_port_infos := setA port { info with type := PortType.concrete T } s.output_port_infos },
          by simp [set_output_port_type, hini, hinfo, htype], by simp⟩
    case flow_dependent tag =>
      by_cases htg : tag = ""
      · cases acc
        · exact ⟨false, s,
            by simp [set_output_port_type, hini, hinfo, htype, htg], fun _ => rfl⟩
        · exact ⟨true, { s with output_port_infos := setA port { info with type := PortType.concrete T } s.output_port_infos },
            by simp [set_output_port_type, hini, hinfo, htype, htg], by simp⟩
      · cases hlk : lookupA tag s.flow_resolved with
        | some t =>
          by_cases heq : t = T
          · exact ⟨true, s,
              by simp [set_output_port_type, hini, hinfo, htype, htg, hlk, heq], fun _ => rfl⟩
          · exact ⟨false, s,
              by simp [set_output_port_type, hini, hinfo, htype, htg, hlk, heq], fun _ => rfl⟩
        | none =>
          cases acc
          · exact ⟨false, s,
              by simp [set_output_port_type, hini, hinfo, htype, htg, hlk], fun _ => rfl⟩
          · exact ⟨true, { s with flow_resolved := setA tag T s.flow_resolved },
              by simp [set_output_port_type, hini, hinfo, htype, htg, hlk], by simp⟩

/-- Witness for C6: after init the error is signalled, a concrete port
signals static-type-reset, and a dependent port yields a verdict. -/
theorem C6_witness :
    set_input_port_type true procStatic "img" "image2" =
      Except.error ProcError.set_type_on_initialized_process ∧
    set_input_port_type true procFlow "c" "other" =
      Except.error ProcError.static_type_reset ∧
    (∃ b s2, set_input_port_type true procFlow "p1" "image" = Except.ok (b, s2) ∧
       (b = false → s2 = procFlow)) :=
  ⟨((C6_set_type_protocol true procStatic "img" "image2").1 rfl).1,
   (C6_set_type_protocol true procFlow "c" "other").2.1 _ rfl rfl rfl,
   (C6_set_type_protocol true procFlow "p1" "image").2.2.2.1 _ rfl rfl rfl⟩

/-- C7 (amended): connect_input_port fails exactly on an empty edge
(null-edge error), an unknown port (no-such-port error), an already
bound input port (port-reconnect error), or a process that has already
initialized (connect-after-init error); connect_output_port fails
exactly on an empty edge or an unknown port — the throw clauses of
process.h declare no connect-after-init failure for output connections,
which are accepted even after initialization. -/
theorem C7_connect_protocol (s : ProcState) (port : String) (e : Edge) :
    (connect_input_port s port Option.none =
       Except.error ProcError.null_edge_port_connection ∧
     connect_output_port s port Option.none =
       Except.error ProcError.null_edge_port_connection)
  ∧ (s.initialized = true →
       connect_input_port s port (Option.some e) =
         Except.error ProcError.connect_to_initialized_process)
  ∧ (s.initialized = false → lookupA port s.input_port_infos = Option.none →
       connect_input_port s port (Option.some e) = Except.error ProcError.no_such_port)
  ∧ (∀ info e0, s.initialized = false →
       lookupA port s.input_port_infos = Option.some info →
       lookupA port s.input_edges = Option.some e0 →
       connect_input_port s port (Option.some e) = Except.error ProcError.port_reconnect)
  ∧ (∀ info, s.initialized = false →
       lookupA port s.input_port_infos = Option.some info →
       lookupA port s.input_edges = Option.none →
       ∃ s2, connect_input_port s port (Option.some e) = Except.ok s2 ∧
         lookupA port s2.input_edges = Option.some e)
  ∧ (lookupA port s.output_port_infos = Option.none →
       connect_output_port s port (Option.some e) = Except.error ProcError.no_such_port)
  ∧ (∀ info, lookupA port s.output_port_infos = Option.some info →
       ∃ s2, connect_output_port s port (Option.some e) = Except.ok s2) := by
  refine ⟨⟨rfl, rfl⟩, ?_, ?_, ?_, ?_, ?_, ?_⟩
  · intro h
    simp [connect_input_port, h]
  · intro h1 h2
    simp [connect_input_port, h1, h2]
  · intro info e0 h1 h2 h3
    simp [connect_input_port, h1, h2, h3]
  · intro info h1 h2 h3
    refine ⟨{ s with input_edges := setA port e s.input_edges }, ?_, ?_⟩
    · simp [connect_input_port, h1, h2, h3]
    · simp [lookupA_setA_self]
  · intro h
    simp [connect_output_port, h]
  · intro info h
    refine ⟨{ s with output_edges := setA port ((match lookupA port s.output_edges with | Option.some es => es | Option.none => []) ++ [e]) s.output_edges }, ?_⟩
    simp [connect_output_port, h]

/-- An initialized process with a declared output port and no output
edges yet. -/
def procC7 : ProcState :=
  { procInit with
      output_port_infos :=
        [("out", { type := PortType.concrete "int", flags := [],
                   description := "", frequency := 1 })] }

/-- A not-yet-initialized process with ports and a bound input edge. -/
def procC7pre : ProcState := { procStatic with initialized := false }

/-- Witness for C7 at concrete processes. -/
theorem C7_witness :
    connect_input_port procFlow "p1" Option.none =
      Except.error ProcError.null_edge_port_connection ∧
    connect_input_port procStatic "img" (Option.some []) =
      Except.error ProcError.connect_to_initialized_process ∧
    connect_input_port procFlow "nope" (Option.some []) =
      Except.error ProcError.no_such_port ∧
    connect_input_port procC7pre "img" (Option.some []) =
      Except.error ProcError.port_reconnect ∧
    (∃ s2, connect_input_port procFlow "p1" (Option.some []) = Except.ok s2 ∧
       lookupA "p1" s2.input_edges = Option.some []) ∧
    connect_output_port procC7 "nope" (Option.some []) =
      Except.error ProcError.no_such_port ∧
    (∃ s2, connect_output_port procC7 "out" (Option.some []) = Except.ok s2) :=
  ⟨(C7_connect_protocol procFlow "p1" []).1.1,
   (C7_connect_protocol procStatic "img" []).2.1 rfl,
   (C7_connect_protocol procFlow "nope" []).2.2.1 rfl rfl,
   (C7_connect_protocol procC7pre "img" []).2.2.2.1 _ _ rfl rfl rfl,
   (C7_connect_protocol procFlow "p1" []).2.2.2.2.1 _ rfl rfl rfl,
   (C7_connect_protocol procC7 "nope" []).2.2.2.2.2.1 rfl,
   (C7_connect_protocol procC7 "out" []).2.2.2.2.2.2 _ rfl⟩

/-- The state procC7 reaches when an output edge is bound after
initialization. -/
def procC7after : ProcState := { procC7 with output_edges := [("out", [[]])] }

/-- C7 counterexample: on the already initialized process procC7,
connecting an edge to the output port succeeds — it does not fail with
the connect-after-init error the claim requires for both directions. -/
theorem C7_counterexample :
    procC7.initialized = true ∧
    connect_output_port procC7 "out" (Option.some []) = Except.ok procC7after ∧
    connect_output_port procC7 "out" (Option.some []) ≠
      Except.error ProcError.connect_to_initialized_process := by
  refine ⟨rfl, by decide, by decide⟩

end Sprokit
